import Mathlib

/-
Verification of the extraction-to-table pipeline of gemini-pdf-extractor.

The pipeline (MAERSK_INC_info_extraction.py `main` and the app.py `/extract`
handler) receives a JSON record from the document model, expands it into one
output row per container, and incrementally rewrites a spreadsheet while
tracking which documents were already processed.  The schema constrains every
field to a scalar (string / number / JSON null) or a flat list of scalars, so
JSON values are embedded at exactly that depth.
-/

/-- A scalar JSON value as it appears in a `Record` field: JSON null, a
string, or a number (numbers are carried opaquely; the pipeline never
computes with them). -/
inductive Scalar where
  | null
  | str (s : String)
  | num (q : ℚ)
deriving DecidableEq, Repr

/-- A JSON value stored in one field of an extraction result: a scalar or a
flat list of scalars (the shapes admitted by `ExtractionSchema`). -/
inductive JVal where
  | scalar (v : Scalar)
  | list (xs : List Scalar)
deriving DecidableEq, Repr

/-- Python truthiness of a scalar: `None`, `""` and `0` are falsy. -/
def Scalar.truthy : Scalar → Bool
  | .null => false
  | .str s => !s.isEmpty
  | .num q => decide (q ≠ 0)

/-- Python truthiness of a JSON value: the empty list is falsy. -/
def JVal.truthy : JVal → Bool
  | .scalar v => v.truthy
  | .list xs => !xs.isEmpty

/-- Python `a or b`: `a` when `a` is truthy, otherwise `b`. -/
def pyOr (a b : JVal) : JVal := if a.truthy then a else b

/-- A JSON object / Python dict: ordered key-value entries.  Both the model
result (`data`) and each output row are such dicts. -/
structure Record where
  entries : List (String × JVal)
deriving DecidableEq, Repr

/-- Python `data.get(k)`: the value at key `k`, or `None` when absent. -/
def Record.get (r : Record) (k : String) : JVal :=
  (List.lookup k r.entries).getD (JVal.scalar Scalar.null)

/-- Python `k in data`. -/
def Record.hasKey (r : Record) (k : String) : Bool :=
  (List.lookup k r.entries).isSome

/-- The empty dict (a model response with no fields at all). -/
def emptyRec : Record := ⟨[]⟩

/-- A persisted spreadsheet: a column list plus the stored row dicts
(pandas DataFrame written by `to_excel`, reloaded by `read_excel`). -/
structure Table where
  cols : List String
  rows : List Record
deriving DecidableEq, Repr

/-- The fixed column order `cols` of MAERSK_INC_info_extraction.py line 132
(identical to the list in app.py lines 166-168). -/
def colsINC : List String :=
  ["file_name", "invoice_date", "invoice_number", "bl_number", "port_of_loading",
   "cy_cfs_destination", "container_number", "gross_weight", "total_amount"]

/-- The row dict built for container index `i`
(MAERSK_INC_info_extraction.py lines 158-168; app.py lines 148-158 build the
same dict literal). -/
def mkRow (data : Record) (filename : String) (container weight : Scalar) : Record :=
  ⟨[("file_name", JVal.scalar (.str filename)),
    ("invoice_date", data.get "invoice_date"),
    ("invoice_number", data.get "invoice_number"),
    ("bl_number", data.get "bl_number"),
    ("port_of_loading", data.get "port_of_loading"),
    ("cy_cfs_destination", data.get "cy_cfs_destination"),
    ("container_number", JVal.scalar container),
    ("gross_weight", JVal.scalar weight),
    ("total_amount", data.get "total_amount")]⟩

/-- Container-list normalization of the batch script
(MAERSK_INC_info_extraction.py lines 143-151):
`container_numbers = data.get('container_numbers') or [None]`, then the
`isinstance` coercion of a scalar to a one-element list, then the
empty-list fallback. -/
def cnINC (data : Record) : List Scalar :=
  match pyOr (data.get "container_numbers") (JVal.list [Scalar.null]) with
  | .scalar v => [v]
  | .list xs => if xs.length = 0 then [Scalar.null] else xs

/-- Container-list normalization of the web service (app.py lines 128-136):
an explicit `is None` check, then the `isinstance` coercion, then the
empty-list fallback. -/
def cnApp (data : Record) : List Scalar :=
  let cn1 :=
    if data.get "container_numbers" = JVal.scalar Scalar.null then [Scalar.null]
    else match data.get "container_numbers" with
      | .scalar v => [v]
      | .list xs => xs
  if cn1.length = 0 then [Scalar.null] else cn1

/-- Weight-list normalization, textually identical in both files
(MAERSK_INC_info_extraction.py lines 144-149, app.py lines 138-140):
`gross_weights = data.get('gross_weights') or []` plus the `isinstance`
coercion. -/
def gwRaw (data : Record) : List Scalar :=
  match pyOr (data.get "gross_weights") (JVal.list []) with
  | .scalar v => [v]
  | .list xs => xs

/-- The `while len(gross_weights) < len(container_numbers)` padding loop:
right-pad the weight list with nulls up to the container-list length. -/
def padWeights (gw : List Scalar) (n : Nat) : List Scalar :=
  gw ++ List.replicate (n - gw.length) Scalar.null

/-- The record-to-rows normalization of the batch script
(MAERSK_INC_info_extraction.py lines 143-169): one row per container,
weight `gross_weights[i] if i < len(gross_weights) else None`. -/
def normINC (data : Record) (filename : String) : List Record :=
  (List.range (cnINC data).length).map fun i =>
    mkRow data filename ((cnINC data).getD i Scalar.null)
      ((padWeights (gwRaw data) (cnINC data).length).getD i Scalar.null)

/-- The record-to-rows normalization of the web service
(app.py lines 128-159). -/
def normApp (data : Record) (filename : String) : List Record :=
  (List.range (cnApp data).length).map fun i =>
    mkRow data filename ((cnApp data).getD i Scalar.null)
      ((padWeights (gwRaw data) (cnApp data).length).getD i Scalar.null)

/-- One row dict projected onto the fixed column list, with `None` for any
column the row lacks (the effect of `DataFrame(results)` followed by the
missing-column loop and `df = df[cols]`). -/
def projectRow (cols : List String) (r : Record) : Record :=
  ⟨cols.map fun c => (c, r.get c)⟩

/-- The incremental save of MAERSK_INC_info_extraction.py lines 172-179:
build a DataFrame from the full in-memory `results`, create any missing
column as all-null, select the fixed column order, and write the whole
file.  The persisted table is the projection of every row onto `colsINC`. -/
def saveINC (results : List Record) : Table :=
  ⟨colsINC, results.map (projectRow colsINC)⟩

/-- One iteration of the batch loop (MAERSK_INC_info_extraction.py lines
134-183) on the driver state `(results, writes)`.  `extract` is the
extraction client (`extract_from_pdf`): it returns `none` when the call
failed and the client swallowed the exception.  `saveOk` says whether the
`to_excel` write for this document succeeds; a failed write is caught,
printed and otherwise ignored.  `writes` records the sequence of tables
successfully written so far. -/
def stepINC (extract : String → Option Record) (saveOk : String → Bool)
    (st : List Record × List Table) (filename : String) : List Record × List Table :=
  match extract filename with
  | none => st
  | some data =>
    if data.entries.isEmpty then st
    else
      let results := st.1 ++ normINC data filename
      (results, if saveOk filename then st.2 ++ [saveINC results] else st.2)

/-- The batch loop over the pending files, starting from the loaded
`results` list: `for index, filename in enumerate(files_to_process)`. -/
def runINC (extract : String → Option Record) (saveOk : String → Bool)
    (init : List Record) (files : List String) : List Record × List Table :=
  files.foldl (stepINC extract saveOk) (init, [])

/-- The resume logic of MAERSK_INC_info_extraction.py lines 104-122: load
the existing table (when the file exists), keep its rows only when a
`filename` column is present, derive the processed set from the
`file_name` values of the kept rows, and filter the discovered files.
Returns `(results, files_to_process)`. -/
def resumeINC (existing : Option Table) (allFiles : List String) :
    List Record × List String :=
  let results : List Record :=
    match existing with
    | some t => if t.cols.contains "filename" then t.rows else []
    | none => []
  let processed : List JVal :=
    (results.filter fun r => r.hasKey "file_name").map fun r => r.get "file_name"
  (results, allFiles.filter fun f => !processed.contains (JVal.scalar (.str f)))

/-- The in-memory `results` component of one loop iteration on its own
(its value does not depend on whether any write succeeds). -/
def resultsStep (extract : String → Option Record) (res : List Record)
    (filename : String) : List Record :=
  match extract filename with
  | none => res
  | some data => if data.entries.isEmpty then res else res ++ normINC data filename

/-- A one-container record, as returned for a typical single-container
invoice. -/
def demoRec : Record := ⟨[("container_numbers", JVal.list [.str "MSKU2804235"])]⟩

/-- A two-container record whose weight list is one element short. -/
def rec2 : Record :=
  ⟨[("container_numbers", JVal.list [.str "BMOU1441213", .str "MSKU9876543"]),
    ("gross_weights", JVal.list [.num 1]),
    ("total_amount", JVal.scalar (.num 2))]⟩

/-- A record whose container field is a falsy scalar (the empty string). -/
def recFalsyScalar : Record := ⟨[("container_numbers", JVal.scalar (.str ""))]⟩

/-- A record whose container field is a truthy scalar instead of a list. -/
def recTruthyScalar : Record :=
  ⟨[("container_numbers", JVal.scalar (.str "MSKU1234567"))]⟩

/-! Helper lemmas: field access on a freshly built row. -/

lemma mkRow_get_file (d : Record) (fn : String) (c w : Scalar) :
    (mkRow d fn c w).get "file_name" = JVal.scalar (.str fn) := rfl

lemma mkRow_get_container (d : Record) (fn : String) (c w : Scalar) :
    (mkRow d fn c w).get "container_number" = JVal.scalar c := rfl

lemma mkRow_get_weight (d : Record) (fn : String) (c w : Scalar) :
    (mkRow d fn c w).get "gross_weight" = JVal.scalar w := rfl

lemma mkRow_get_invoice_date (d : Record) (fn : String) (c w : Scalar) :
    (mkRow d fn c w).get "invoice_date" = d.get "invoice_date" := rfl

lemma mkRow_get_invoice_number (d : Record) (fn : String) (c w : Scalar) :
    (mkRow d fn c w).get "invoice_number" = d.get "invoice_number" := rfl

lemma mkRow_get_bl_number (d : Record) (fn : String) (c w : Scalar) :
    (mkRow d fn c w).get "bl_number" = d.get "bl_number" := rfl

lemma mkRow_get_port (d : Record) (fn : String) (c w : Scalar) :
    (mkRow d fn c w).get "port_of_loading" = d.get "port_of_loading" := rfl

lemma mkRow_get_dest (d : Record) (fn : String) (c w : Scalar) :
    (mkRow d fn c w).get "cy_cfs_destination" = d.get "cy_cfs_destination" := rfl

lemma mkRow_get_total (d : Record) (fn : String) (c w : Scalar) :
    (mkRow d fn c w).get "total_amount" = d.get "total_amount" := rfl

/-! Helper lemmas: the container-list normalizations case by case. -/

lemma cnINC_list (data : Record) (cs : List Scalar)
    (h : data.get "container_numbers" = JVal.list cs) (hne : cs ≠ []) :
    cnINC data = cs := by
  have hor : pyOr (JVal.list cs) (JVal.list [Scalar.null]) = JVal.list cs := by
    cases cs with
    | nil => exact absurd rfl hne
    | cons a t => rfl
  unfold cnINC
  rw [h, hor]
  show (if cs.length = 0 then [Scalar.null] else cs) = cs
  rw [if_neg]
  simpa [List.length_eq_zero] using hne

lemma cnINC_nullOrEmpty (data : Record)
    (h : data.get "container_numbers" = JVal.scalar Scalar.null ∨
         data.get "container_numbers" = JVal.list []) :
    cnINC data = [Scalar.null] := by
  unfold cnINC
  rcases h with h | h <;> rw [h] <;> rfl

lemma cnINC_truthyScalar (data : Record) (v : Scalar)
    (h : data.get "container_numbers" = JVal.scalar v) (hv : v.truthy = true) :
    cnINC data = [v] := by
  unfold cnINC
  rw [h]
  show (match pyOr (JVal.scalar v) (JVal.list [Scalar.null]) with
    | .scalar v => [v]
    | .list xs => if xs.length = 0 then [Scalar.null] else xs) = [v]
  rw [show pyOr (JVal.scalar v) (JVal.list [Scalar.null]) = JVal.scalar v from
    if_pos (by simpa [JVal.truthy] using hv)]

lemma scalar_truthy_ne_null (v : Scalar) (hv : v.truthy = true) : v ≠ Scalar.null := by
  intro h
  subst h
  simp [Scalar.truthy] at hv

lemma cnApp_list (data : Record) (cs : List Scalar)
    (h : data.get "container_numbers" = JVal.list cs) (hne : cs ≠ []) :
    cnApp data = cs := by
  have h0 : cs.length ≠ 0 := by simpa [List.length_eq_zero] using hne
  unfold cnApp
  rw [h]
  simp [h0]

lemma cnApp_nullOrEmpty (data : Record)
    (h : data.get "container_numbers" = JVal.scalar Scalar.null ∨
         data.get "container_numbers" = JVal.list []) :
    cnApp data = [Scalar.null] := by
  unfold cnApp
  rcases h with h | h <;> rw [h] <;> rfl

lemma cnApp_truthyScalar (data : Record) (v : Scalar)
    (h : data.get "container_numbers" = JVal.scalar v) (hv : v.truthy = true) :
    cnApp data = [v] := by
  have hne := scalar_truthy_ne_null v hv
  unfold cnApp
  rw [h]
  simp [hne]

lemma gwRaw_list (data : Record) (ws : List Scalar)
    (h : data.get "gross_weights" = JVal.list ws) : gwRaw data = ws := by
  unfold gwRaw
  rw [h]
  cases ws with
  | nil => rfl
  | cons a t => rfl

/-! Helper lemmas: indexing the generated row list and the padded weights. -/

lemma getD_map_range {α : Type} (f : Nat → α) (n i : Nat) (hi : i < n) (d : α) :
    ((List.range n).map f).getD i d = f i := by
  rw [List.getD_eq_getElem?_getD, List.getElem?_map]
  simp [List.getElem?_range, hi]

lemma padWeights_getD_lt (gw : List Scalar) (n i : Nat) (hi : i < gw.length) :
    (padWeights gw n).getD i Scalar.null = gw.getD i Scalar.null := by
  unfold padWeights
  exact List.getD_append _ _ _ _ hi

lemma padWeights_getD_ge (gw : List Scalar) (n i : Nat) (hge : gw.length ≤ i) :
    (padWeights gw n).getD i Scalar.null = Scalar.null := by
  unfold padWeights
  rw [List.getD_append_right _ _ _ _ hge, List.getD_eq_getElem?_getD,
    List.getElem?_replicate]
  split <;> rfl

lemma normINC_length (data : Record) (fn : String) :
    (normINC data fn).length = (cnINC data).length := by
  simp [normINC]

lemma normINC_getD (data : Record) (fn : String) (i : Nat)
    (hi : i < (cnINC data).length) :
    (normINC data fn).getD i emptyRec =
      mkRow data fn ((cnINC data).getD i Scalar.null)
        ((padWeights (gwRaw data) (cnINC data).length).getD i Scalar.null) := by
  unfold normINC
  exact getD_map_range _ _ _ hi _

lemma normApp_length (data : Record) (fn : String) :
    (normApp data fn).length = (cnApp data).length := by
  simp [normApp]

lemma normApp_getD (data : Record) (fn : String) (i : Nat)
    (hi : i < (cnApp data).length) :
    (normApp data fn).getD i emptyRec =
      mkRow data fn ((cnApp data).getD i Scalar.null)
        ((padWeights (gwRaw data) (cnApp data).length).getD i Scalar.null) := by
  unfold normApp
  exact getD_map_range _ _ _ hi _

/-! Helper lemmas: the batch driver loop and the persistence sink. -/

lemma stepINC_fst (e : String → Option Record) (s : String → Bool)
    (st : List Record × List Table) (f : String) :
    (stepINC e s st f).1 = resultsStep e st.1 f := by
  unfold stepINC resultsStep
  cases e f with
  | none => rfl
  | some d =>
    dsimp only
    split
    · rfl
    · rfl

lemma foldl_stepINC_fst (e : String → Option Record) (s : String → Bool) :
    ∀ (files : List String) (st : List Record × List Table),
      (files.foldl (stepINC e s) st).1 = files.foldl (resultsStep e) st.1 := by
  intro files
  induction files with
  | nil => intro st; rfl
  | cons f fs ih =>
    intro st
    rw [List.foldl_cons, List.foldl_cons, ih, stepINC_fst]

lemma stepINC_failed (e : String → Option Record) (s : String → Bool)
    (st : List Record × List Table) (f : String) (hf : e f = none) :
    stepINC e s st f = st := by
  unfold stepINC
  rw [hf]

lemma foldl_stepINC_skip (e : String → Option Record) (s : String → Bool)
    (f : String) (hf : e f = none) :
    ∀ (files : List String) (st : List Record × List Table),
      files.foldl (stepINC e s) st =
        (files.filter fun g => g != f).foldl (stepINC e s) st := by
  intro files
  induction files with
  | nil => intro st; rfl
  | cons g gs ih =>
    intro st
    by_cases hg : g = f
    · subst hg
      rw [List.filter_cons, if_neg (by simp), List.foldl_cons,
        stepINC_failed e s st g hf, ih]
    · rw [List.filter_cons, if_pos (by simpa using hg), List.foldl_cons,
        List.foldl_cons, ih]

lemma foldl_stepINC_writes_shape (e : String → Option Record) (s : String → Bool) :
    ∀ (files : List String) (st : List Record × List Table),
      (∀ t ∈ st.2, ∃ rs, t = saveINC rs) →
      ∀ t ∈ (files.foldl (stepINC e s) st).2, ∃ rs, t = saveINC rs := by
  intro files
  induction files with
  | nil => intro st h; exact h
  | cons f fs ih =>
    intro st h
    rw [List.foldl_cons]
    refine ih _ ?_
    intro t ht
    unfold stepINC at ht
    cases hf : e f with
    | none => rw [hf] at ht; exact h t ht
    | some d =>
      rw [hf] at ht
      dsimp only at ht
      by_cases hd : d.entries.isEmpty
      · rw [if_pos hd] at ht; exact h t ht
      · rw [if_neg hd] at ht
        dsimp only at ht
        by_cases hs : s f
        · rw [if_pos hs] at ht
          rcases List.mem_append.1 ht with hold | hnew
          · exact h t hold
          · exact ⟨st.1 ++ normINC d f, List.mem_singleton.1 hnew⟩
        · rw [if_neg hs] at ht; exact h t ht

lemma foldl_stepINC_writes_sub (e : String → Option Record) (s : String → Bool) :
    ∀ (files : List String) (st sv : List Record × List Table),
      st.1 = sv.1 → List.Sublist st.2 sv.2 →
      List.Sublist (files.foldl (stepINC e s) st).2
        (files.foldl (stepINC e (fun _ => true)) sv).2 := by
  intro files
  induction files with
  | nil => intro st sv _ h2; exact h2
  | cons f fs ih =>
    intro st sv h1 h2
    rw [List.foldl_cons, List.foldl_cons]
    refine ih _ _ ?_ ?_
    · rw [stepINC_fst, stepINC_fst, h1]
    · unfold stepINC
      cases hf : e f with
      | none => exact h2
      | some d =>
        dsimp only
        by_cases hd : d.entries.isEmpty
        · rw [if_pos hd, if_pos hd]
          exact h2
        · rw [if_neg hd, if_neg hd]
          dsimp only
          rw [if_pos rfl, h1]
          by_cases hs : s f
          · rw [if_pos hs]
            exact h2.append (List.Sublist.refl _)
          · rw [if_neg hs]
            exact h2.trans (List.sublist_append_left _ _)

lemma projectRow_keys (cols : List String) (r : Record) :
    (projectRow cols r).entries.map Prod.fst = cols := by
  unfold projectRow
  dsimp only
  rw [List.map_map]
  exact List.map_id' _

lemma saveINC_cols (results : List Record) : (saveINC results).cols = colsINC := rfl

lemma saveINC_row_keys (results : List Record) (r : Record)
    (hr : r ∈ (saveINC results).rows) : r.entries.map Prod.fst = colsINC := by
  unfold saveINC at hr
  dsimp only at hr
  obtain ⟨r0, _, rfl⟩ := List.mem_map.1 hr
  exact projectRow_keys _ _

lemma resumeINC_fixedCols (t : Table) (allFiles : List String)
    (h : t.cols = colsINC) : resumeINC (some t) allFiles = ([], allFiles) := by
  unfold resumeINC
  dsimp only
  rw [h, show colsINC.contains "filename" = false from by decide]
  simp [List.filter_eq_self]

/-- C1: for a record whose container list has length N and whose weight list
has length M < N, normalization produces exactly N rows; row i carries the
i-th container, the i-th weight for i < M and null for i >= M, and every
scalar field of the record is copied unchanged into every row. -/
theorem c1_parallel_list_padding (data : Record) (fn : String) (cs ws : List Scalar)
    (hc : data.get "container_numbers" = JVal.list cs)
    (hw : data.get "gross_weights" = JVal.list ws)
    (hlt : ws.length < cs.length) :
    (normINC data fn).length = cs.length ∧
    (∀ i, i < cs.length →
      ((normINC data fn).getD i emptyRec).get "container_number" =
        JVal.scalar (cs.getD i Scalar.null)) ∧
    (∀ i, i < ws.length →
      ((normINC data fn).getD i emptyRec).get "gross_weight" =
        JVal.scalar (ws.getD i Scalar.null)) ∧
    (∀ i, ws.length ≤ i → i < cs.length →
      ((normINC data fn).getD i emptyRec).get "gross_weight" =
        JVal.scalar Scalar.null) ∧
    (∀ i, i < cs.length →
      ((normINC data fn).getD i emptyRec).get "file_name" = JVal.scalar (.str fn) ∧
      ((normINC data fn).getD i emptyRec).get "invoice_date" = data.get "invoice_date" ∧
      ((normINC data fn).getD i emptyRec).get "invoice_number" = data.get "invoice_number" ∧
      ((normINC data fn).getD i emptyRec).get "bl_number" = data.get "bl_number" ∧
      ((normINC data fn).getD i emptyRec).get "port_of_loading" = data.get "port_of_loading" ∧
      ((normINC data fn).getD i emptyRec).get "cy_cfs_destination" = data.get "cy_cfs_destination" ∧
      ((normINC data fn).getD i emptyRec).get "total_amount" = data.get "total_amount") := by
  have hne : cs ≠ [] :=
    List.ne_nil_of_length_pos (Nat.lt_of_le_of_lt (Nat.zero_le _) hlt)
  have hcn : cnINC data = cs := cnINC_list data cs hc hne
  have hgw : gwRaw data = ws := gwRaw_list data ws hw
  have hrow : ∀ i, i < cs.length → (normINC data fn).getD i emptyRec =
      mkRow data fn (cs.getD i Scalar.null)
        ((padWeights ws cs.length).getD i Scalar.null) := by
    intro i hi
    rw [normINC_getD data fn i (by rw [hcn]; exact hi), hcn, hgw]
  refine ⟨?_, ?_, ?_, ?_, ?_⟩
  · rw [normINC_length, hcn]
  · intro i hi
    rw [hrow i hi, mkRow_get_container]
  · intro i hi
    rw [hrow i (Nat.lt_trans hi hlt), mkRow_get_weight,
      padWeights_getD_lt ws cs.length i hi]
  · intro i h1 h2
    rw [hrow i h2, mkRow_get_weight, padWeights_getD_ge ws cs.length i h1]
  · intro i hi
    rw [hrow i hi]
    exact ⟨rfl, rfl, rfl, rfl, rfl, rfl, rfl⟩

/-- C1 witness: a concrete record with two containers and one weight yields
two rows. -/
theorem c1_parallel_list_padding_witness :
    (normINC rec2 "f.pdf").length = 2 :=
  (c1_parallel_list_padding rec2 "f.pdf"
    [Scalar.str "BMOU1441213", Scalar.str "MSKU9876543"] [Scalar.num 1]
    rfl rfl (by decide)).1

/-- C2: the resume logic of the batch script is broken.  A first run over
`a.pdf` persists a table whose column list is `colsINC` (headed by
`file_name`), but on restart the loader keeps the stored rows only when a
`filename` column exists, so the loaded rows are discarded, the processed
set is empty, and every file is pending again — the claim that a second run
re-processes zero documents fails. -/
theorem c2_resume_bug :
    (runINC (fun _ => some demoRec) (fun _ => true) [] ["a.pdf"]).2 =
      [saveINC (normINC demoRec "a.pdf")] ∧
    resumeINC (some (saveINC (normINC demoRec "a.pdf"))) ["a.pdf"] =
      ([], ["a.pdf"]) := by
  exact ⟨by decide, by decide⟩

/-- C3 counterexample: a successfully extracted but entirely empty record is
skipped by the `if data:` gate, so the run appends zero rows for the
document, not the single all-null row the claim requires. -/
theorem c3_empty_record_no_row :
    ¬ ((runINC (fun _ => some emptyRec) (fun _ => true) [] ["X.pdf"]).1.length = 1) := by
  decide

/-- C3 amended: a document whose extraction returns an entirely empty record
leaves the driver state unchanged: no row is appended, nothing is written,
and the document is not marked processed. -/
theorem c3_empty_record_skipped (e : String → Option Record) (s : String → Bool)
    (st : List Record × List Table) (f : String) (h : e f = some emptyRec) :
    stepINC e s st f = st := by
  unfold stepINC
  rw [h]
  rfl

/-- C3 witness. -/
theorem c3_empty_record_skipped_witness :
    stepINC (fun _ => some emptyRec) (fun _ => true) ([], []) "X.pdf" = ([], []) :=
  c3_empty_record_skipped _ _ _ _ rfl

/-- C4 counterexample: after a document whose extraction fails the sink does
not rewrite the table at all — the save block sits inside `if data:`, so a
completed-but-failed document produces zero writes, not one. -/
theorem c4_no_write_after_failed_doc :
    (runINC (fun _ => none) (fun _ => true) [] ["X.pdf"]).2 = [] := by
  decide

/-- C4 amended: after each document whose extraction returns a non-empty
record (and whose write succeeds), the sink rewrites the entire output table
from the full current in-memory row sequence before the driver advances;
documents that fail or return an empty record trigger no write. -/
theorem c4_rewrite_after_rowful_doc (e : String → Option Record) (s : String → Bool)
    (st : List Record × List Table) (f : String) (d : Record)
    (h1 : e f = some d) (h2 : d.entries.isEmpty = false) (h3 : s f = true) :
    stepINC e s st f =
      (st.1 ++ normINC d f, st.2 ++ [saveINC (st.1 ++ normINC d f)]) := by
  unfold stepINC
  rw [h1]
  simp [h2, h3]

/-- C4 witness. -/
theorem c4_rewrite_after_rowful_doc_witness :
    stepINC (fun _ => some demoRec) (fun _ => true) ([], []) "a.pdf" =
      (normINC demoRec "a.pdf", [saveINC (normINC demoRec "a.pdf")]) :=
  c4_rewrite_after_rowful_doc _ _ ([], []) "a.pdf" demoRec rfl rfl rfl

/-- C5: a record whose container field is absent (null) or the empty list
normalizes to exactly one row with null in the container column, in both the
batch script and the web service. -/
theorem c5_absent_or_empty_one_row (data : Record) (fn : String)
    (h : data.get "container_numbers" = JVal.scalar Scalar.null ∨
         data.get "container_numbers" = JVal.list []) :
    ((normINC data fn).length = 1 ∧
      ((normINC data fn).getD 0 emptyRec).get "container_number" =
        JVal.scalar Scalar.null) ∧
    ((normApp data fn).length = 1 ∧
      ((normApp data fn).getD 0 emptyRec).get "container_number" =
        JVal.scalar Scalar.null) := by
  have h1 : cnINC data = [Scalar.null] := cnINC_nullOrEmpty data h
  have h2 : cnApp data = [Scalar.null] := cnApp_nullOrEmpty data h
  refine ⟨⟨?_, ?_⟩, ?_, ?_⟩
  · rw [normINC_length, h1]
    rfl
  · rw [normINC_getD data fn 0 (by rw [h1]; exact Nat.zero_lt_one), h1,
      mkRow_get_container]
    rfl
  · rw [normApp_length, h2]
    rfl
  · rw [normApp_getD data fn 0 (by rw [h2]; exact Nat.zero_lt_one), h2,
      mkRow_get_container]
    rfl

/-- C5 witness: the empty record has an absent container field and yields
one row. -/
theorem c5_absent_or_empty_one_row_witness :
    (normINC emptyRec "f.pdf").length = 1 :=
  (c5_absent_or_empty_one_row emptyRec "f.pdf" (Or.inl rfl)).1.1

/-- C6: every table ever written by a run has the fixed column list, and
every persisted row carries exactly those columns in that order (values the
record lacked are stored as explicit nulls by `projectRow`). -/
theorem c6_writes_full_schema (e : String → Option Record) (s : String → Bool)
    (init : List Record) (files : List String) (t : Table)
    (ht : t ∈ (runINC e s init files).2) :
    t.cols = colsINC ∧ ∀ r ∈ t.rows, r.entries.map Prod.fst = colsINC := by
  unfold runINC at ht
  obtain ⟨rs, rfl⟩ := foldl_stepINC_writes_shape e s files (init, [])
    (by intro x hx; exact absurd hx (List.not_mem_nil x)) t ht
  exact ⟨saveINC_cols rs, fun r hr => saveINC_row_keys rs r hr⟩

/-- C6 witness. -/
theorem c6_writes_full_schema_witness :
    (saveINC (normINC demoRec "a.pdf")).cols = colsINC :=
  (c6_writes_full_schema (fun _ => some demoRec) (fun _ => true) [] ["a.pdf"]
    (saveINC (normINC demoRec "a.pdf")) (by decide)).1

/-- C7: a document whose extraction call fails contributes nothing to the
run — the run equals the run with that document removed, so zero rows are
added and nothing is written for it — and for every table the run persists,
the document is still pending when the batch is resumed from that table. -/
theorem c7_failed_doc_stays_pending (e : String → Option Record) (s : String → Bool)
    (init : List Record) (files allFiles : List String) (f : String)
    (hfail : e f = none) (hmem : f ∈ allFiles) :
    runINC e s init files = runINC e s init (files.filter fun g => g != f) ∧
    ∀ t ∈ (runINC e s init files).2, f ∈ (resumeINC (some t) allFiles).2 := by
  constructor
  · unfold runINC
    exact foldl_stepINC_skip e s f hfail files (init, [])
  · intro t ht
    unfold runINC at ht
    obtain ⟨rs, rfl⟩ := foldl_stepINC_writes_shape e s files (init, [])
      (by intro x hx; exact absurd hx (List.not_mem_nil x)) t ht
    rw [resumeINC_fixedCols (saveINC rs) allFiles (saveINC_cols rs)]
    exact hmem

/-- C7 witness. -/
theorem c7_failed_doc_stays_pending_witness :
    runINC (fun _ => none) (fun _ => true) [] ["X.pdf"] =
      runINC (fun _ => none) (fun _ => true) []
        (["X.pdf"].filter fun g => g != "X.pdf") :=
  (c7_failed_doc_stays_pending (fun _ => none) (fun _ => true) [] ["X.pdf"]
    ["X.pdf"] "X.pdf" rfl (by decide)).1

/-- C8: write failures never change the in-memory row sequence — the rows
after a run are the same whatever subset of writes succeeds — and the
sequence of tables actually written under any write-success pattern is a
subsequence of the all-writes-succeed sequence, each entry being the full
table for the rows accumulated at that point. -/
theorem c8_write_failure_keeps_rows (e : String → Option Record)
    (sA sB : String → Bool) (init : List Record) (files : List String) :
    (runINC e sA init files).1 = (runINC e sB init files).1 ∧
    List.Sublist (runINC e sA init files).2
      (runINC e (fun _ => true) init files).2 := by
  constructor
  · unfold runINC
    rw [foldl_stepINC_fst, foldl_stepINC_fst]
  · unfold runINC
    exact foldl_stepINC_writes_sub e sA files (init, []) (init, []) rfl
      (List.Sublist.refl _)

/-- C9 counterexample: a container field holding the falsy scalar `""` is
replaced by null in the batch script instead of being kept as a one-element
list containing the scalar. -/
theorem c9_falsy_scalar_dropped :
    ((normINC recFalsyScalar "f.pdf").getD 0 emptyRec).get "container_number" =
      JVal.scalar Scalar.null ∧
    ¬ (((normINC recFalsyScalar "f.pdf").getD 0 emptyRec).get "container_number" =
      JVal.scalar (.str "")) := by
  exact ⟨by decide, by decide⟩

/-- C9 amended: a container field holding a truthy scalar is coerced to a
one-element list, producing exactly one row carrying that scalar, in both
normalizations; the batch script treats a falsy scalar like an absent
field. -/
theorem c9_truthy_scalar_one_row (data : Record) (fn : String) (v : Scalar)
    (h : data.get "container_numbers" = JVal.scalar v) (hv : v.truthy = true) :
    ((normINC data fn).length = 1 ∧
      ((normINC data fn).getD 0 emptyRec).get "container_number" = JVal.scalar v) ∧
    ((normApp data fn).length = 1 ∧
      ((normApp data fn).getD 0 emptyRec).get "container_number" = JVal.scalar v) := by
  have h1 := cnINC_truthyScalar data v h hv
  have h2 := cnApp_truthyScalar data v h hv
  refine ⟨⟨?_, ?_⟩, ?_, ?_⟩
  · rw [normINC_length, h1]
    rfl
  · rw [normINC_getD data fn 0 (by rw [h1]; exact Nat.zero_lt_one), h1,
      mkRow_get_container]
    rfl
  · rw [normApp_length, h2]
    rfl
  · rw [normApp_getD data fn 0 (by rw [h2]; exact Nat.zero_lt_one), h2,
      mkRow_get_container]
    rfl

/-- C9 witness. -/
theorem c9_truthy_scalar_one_row_witness :
    (normINC recTruthyScalar "f.pdf").length = 1 :=
  (c9_truthy_scalar_one_row recTruthyScalar "f.pdf"
    (Scalar.str "MSKU1234567") rfl rfl).1.1

/-- C10 counterexample: the two normalizations are not equivalent — on a
record whose container field is the falsy scalar `""` the batch script
produces a row with container null while the web service keeps the scalar. -/
theorem c10_normalizers_disagree :
    ¬ (normINC recFalsyScalar "f.pdf" = normApp recFalsyScalar "f.pdf") := by
  decide

/-- C10 amended: the two normalizations agree on every record whose
container field is null, a list, or any truthy value — that is, on
everything except a falsy non-null scalar container field. -/
theorem c10_normalizers_agree (data : Record) (fn : String)
    (h : data.get "container_numbers" = JVal.scalar Scalar.null ∨
         (∃ xs, data.get "container_numbers" = JVal.list xs) ∨
         (data.get "container_numbers").truthy = true) :
    normINC data fn = normApp data fn := by
  have hcn : cnINC data = cnApp data := by
    rcases h with h | ⟨xs, h⟩ | h
    · rw [cnINC_nullOrEmpty data (Or.inl h), cnApp_nullOrEmpty data (Or.inl h)]
    · cases xs with
      | nil =>
        rw [cnINC_nullOrEmpty data (Or.inr h), cnApp_nullOrEmpty data (Or.inr h)]
      | cons a t =>
        rw [cnINC_list data (a :: t) h (by simp), cnApp_list data (a :: t) h (by simp)]
    · cases hg : data.get "container_numbers" with
      | scalar v =>
        rw [hg] at h
        rw [cnINC_truthyScalar data v hg h, cnApp_truthyScalar data v hg h]
      | list xs =>
        cases xs with
        | nil =>
          rw [hg] at h
          simp [JVal.truthy] at h
        | cons a t =>
          rw [cnINC_list data (a :: t) hg (by simp), cnApp_list data (a :: t) hg (by simp)]
  unfold normINC normApp
  rw [hcn]

/-- C10 witness. -/
theorem c10_normalizers_agree_witness :
    normINC demoRec "a.pdf" = normApp demoRec "a.pdf" :=
  c10_normalizers_agree demoRec "a.pdf"
    (Or.inr (Or.inl ⟨[Scalar.str "MSKU2804235"], rfl⟩))
